import Mathlib

/-!
Verification of the evidence-api event-log library.

Shallow embedding of `src/common/rust/evidence_api/src/eventlog.rs` and
`src/common/rust/evidence_api/src/tcgcel.rs`. Bytes are `Nat` values
(each < 256 in practice), machine integers are `Nat` (or `Int` for Rust
`i32`) with explicit `% 2^w` where wrap-around matters. Fallible code is
embedded in explicit result types:

* `RResult α` for functions without `&mut self`: `ok`, `err` (Rust
  `Err(..)` returned to the caller), `panicked` (Rust abnormal
  termination: out-of-bounds slice indexing, `unwrap` of `None`,
  `todo!()`/`unimplemented!()`).
* `PResult σ α` for `&mut self` methods: `ok` and `err` carry the mutated
  receiver (in Rust the caller keeps the mutated `self` even on `Err`);
  `panicked` carries nothing, the process dies.

Types declared in `tcg.rs`, `binary_blob.rs` and `api_data.rs` (files of
this repository that are not under `src/`) are modelled from the spec and
from their usage in the two source files; each such definition carries a
`Modelled from the spec:` note.
-/

set_option maxHeartbeats 1000000

namespace EvidenceApi

/-- Result of a stateless Rust function: `ok`, explicit `Err`, or panic. -/
inductive RResult (α : Type) where
  | ok (a : α) : RResult α
  | err (msg : String) : RResult α
  | panicked : RResult α
  deriving Repr

/-- Result of a `&mut self` Rust method: `ok` and `err` carry the mutated
receiver (the caller keeps `self` after an `Err` return); a panic kills
the process so `panicked` carries nothing. -/
inductive PResult (σ : Type) (α : Type) where
  | ok (s : σ) (a : α) : PResult σ α
  | err (s : σ) (msg : String) : PResult σ α
  | panicked : PResult σ α
  deriving Repr

/-- `(r : PResult σ α).isErr` holds exactly when the call returned `Err`. -/
def PResult.isErr {σ α : Type} : PResult σ α → Prop
  | .err _ _ => True
  | _ => False

/-- Rust slice indexing `data[i..i+n]`: `some` sub-slice when in bounds,
`none` (a panic) otherwise. -/
def slice (data : List Nat) (i n : Nat) : Option (List Nat) :=
  if i + n ≤ data.length then some ((data.drop i).take n) else none

/-- Modelled from the spec: the byte-cursor primitives of `binary_blob.rs`
(an out-of-scope collaborator, spec section 1) read little-endian
fixed-width integers from a byte buffer; this folds a little-endian byte
list into the value it denotes. -/
def leBytesToNat (l : List Nat) : Nat :=
  l.foldr (fun b acc => b + 256 * acc) 0

/-- Modelled from the spec: `get_u32` of `binary_blob.rs` (not under
`src/`), little-endian u32 from a 4-byte buffer. -/
def get_u32 (l : List Nat) : Nat := leBytesToNat l

/-- Modelled from the spec: `get_u16` of `binary_blob.rs` (not under
`src/`), little-endian u16 from a 2-byte buffer. -/
def get_u16 (l : List Nat) : Nat := leBytesToNat l

/-- Modelled from the spec: `get_u8` of `binary_blob.rs` (not under
`src/`), u8 from a 1-byte buffer. -/
def get_u8 (l : List Nat) : Nat := leBytesToNat l

/-- Little-endian 4-byte encoding of a u32 value; inverse of `get_u32`
on values below `2 ^ 32`, used to build concrete record blobs. -/
def u32le (n : Nat) : List Nat :=
  [n % 256, n / 256 % 256, n / 2 ^ 16 % 256, n / 2 ^ 24 % 256]

/-- Little-endian 2-byte encoding of a u16 value. -/
def u16le (n : Nat) : List Nat := [n % 256, n / 256 % 256]

/-- `l.modifyIdx i f` applies `f` to the element at index `i` (no-op out
of range); embeds in-place update of `vec[i]`. -/
def modifyIdx {α : Type} : List α → Nat → (α → α) → List α
  | [], _, _ => []
  | x :: xs, 0, f => f x :: xs
  | x :: xs, n + 1, f => x :: modifyIdx xs n f

/-- u32 modulus. -/
def u32Mod : Nat := 2 ^ 32

-- Constants from `tcg.rs` (a file of this repository that is not under
-- `src/`).

/-- Modelled from the spec: `EV_NO_ACTION` of `tcg.rs` (not under
`src/`), the reserved no-action event type marking the spec-ID header
record (TCG value 0x3). -/
def EV_NO_ACTION : Nat := 3

/-- Modelled from the spec: `IMA_MEASUREMENT_EVENT` of `tcg.rs` (not
under `src/`), the fixed event type tagging runtime integrity
measurement records; its numeric value is immaterial here beyond being
distinct from `EV_NO_ACTION`. -/
def IMA_MEASUREMENT_EVENT : Nat := 20

/-- Modelled from the spec: `TPM_ALG_ERROR` of `tcg.rs` (not under
`src/`). -/
def TPM_ALG_ERROR : Nat := 0

/-- Modelled from the spec: `TPM_ALG_SHA1` of `tcg.rs` (not under
`src/`); the value 0x4 is pinned by the replay match arms in
`eventlog.rs` (`0..=3 | 5..=10 | 14..=u16::MAX` are the no-hash arms). -/
def TPM_ALG_SHA1 : Nat := 4

/-- Modelled from the spec: `TPM_ALG_SHA256` of `tcg.rs` (not under
`src/`), TCG value 0xB. -/
def TPM_ALG_SHA256 : Nat := 11

/-- Modelled from the spec: `TPM_ALG_SHA384` of `tcg.rs` (not under
`src/`), TCG value 0xC. -/
def TPM_ALG_SHA384 : Nat := 12

/-- Modelled from the spec: `TPM_ALG_SHA512` of `tcg.rs` (not under
`src/`), TCG value 0xD. -/
def TPM_ALG_SHA512 : Nat := 13

/-- Modelled from the spec: `TCG_PCCLIENT_FORMAT` of `tcg.rs` (not under
`src/`); `format_event_log` in `eventlog.rs` matches
`0_u8 | 3_u8..=u8::MAX => todo!()`, pinning the two live format values to
1 and 2. -/
def TCG_PCCLIENT_FORMAT : Nat := 1

/-- Modelled from the spec: `TCG_CANONICAL_FORMAT` of `tcg.rs` (not under
`src/`). -/
def TCG_CANONICAL_FORMAT : Nat := 2

/-- `TcgDigest` of `tcg.rs`: a tagged `(algorithm_id, hash_bytes)` pair
(spec section 3); fields as used throughout `eventlog.rs`. -/
structure TcgDigest where
  algo_id : Nat
  hash : List Nat
  deriving Repr, DecidableEq

/-- `TcgEfiSpecIdEventAlgorithmSize` of `tcg.rs`: one
`(algorithm_id, digest_size)` entry of the spec-ID header's algorithm
table, as populated by `parse_spec_id_event_log`. -/
structure TcgEfiSpecIdEventAlgorithmSize where
  algo_id : Nat
  digest_size : Nat
  deriving Repr, DecidableEq

/-- `TcgEfiSpecIdEvent` of `tcg.rs` (spec section 3 `SpecIdHeader`),
fields as populated by `parse_spec_id_event_log`. -/
structure TcgEfiSpecIdEvent where
  signature : List Nat
  platform_class : Nat
  spec_version_minor : Nat
  spec_version_major : Nat
  spec_errata : Nat
  uintn_ize : Nat
  number_of_algorithms : Nat
  digest_sizes : List TcgEfiSpecIdEventAlgorithmSize
  vendor_info_size : Nat
  vendor_info : List Nat
  deriving Repr, DecidableEq

/-- Modelled from the spec: `TcgEfiSpecIdEvent::new()` of `tcg.rs` (not
under `src/`): the empty header held before the spec-ID record is
parsed (no algorithms declared). -/
def TcgEfiSpecIdEvent.new : TcgEfiSpecIdEvent :=
  { signature := [], platform_class := 0, spec_version_minor := 0,
    spec_version_major := 0, spec_errata := 0, uintn_ize := 0,
    number_of_algorithms := 0, digest_sizes := [], vendor_info_size := 0,
    vendor_info := [] }

/-- `TcgEventLog` of `eventlog.rs`: the parser's working record. The
`extra_info` string map is a list of key-value pairs. -/
structure TcgEventLog where
  rec_num : Nat
  imr_index : Nat
  event_type : Nat
  digests : List TcgDigest
  event_size : Nat
  event : List Nat
  extra_info : List (String × String)
  deriving Repr, DecidableEq

/-- `TcgImrEvent` of `tcg.rs` (spec section 3 StandardEvent), fields as
constructed in `to_tcg_pcclient_format`. -/
structure TcgImrEvent where
  imr_index : Nat
  event_type : Nat
  digests : List TcgDigest
  event_size : Nat
  event : List Nat
  deriving Repr, DecidableEq

/-- `TcgPcClientImrEvent` of `tcg.rs` (spec section 3 HeaderEvent with
its fixed 20-byte digest), fields as constructed in
`to_tcg_pcclient_format`. -/
structure TcgPcClientImrEvent where
  imr_index : Nat
  event_type : Nat
  digest : List Nat
  event_size : Nat
  event : List Nat
  deriving Repr, DecidableEq

/-- `EventLogEntry` of `tcg.rs`: the typed output variant. The canonical
variant's payload is never inspected by the code under `src/`, so it is
modelled as opaque (`Unit`). -/
inductive EventLogEntry where
  | tcgImrEvent (e : TcgImrEvent) : EventLogEntry
  | tcgPcClientImrEvent (e : TcgPcClientImrEvent) : EventLogEntry
  | tcgCanonicalEvent (u : Unit) : EventLogEntry
  deriving Repr, DecidableEq

/-- `ReplayResult` of `api_data.rs` (spec section 3): per-register list
of recomputed digests. -/
structure ReplayResult where
  imr_index : Nat
  digests : List TcgDigest
  deriving Repr, DecidableEq

/-- Modelled from the spec: the hash-algorithm registry (spec section 6
collaborator interface) binding the four supported algorithm ids to
concrete hash functions; the `sha1`/`sha2` crates are external to this
repository, so replay is parameterized over the four functions. -/
structure HashFns where
  sha1 : List Nat → List Nat
  sha256 : List Nat → List Nat
  sha384 : List Nat → List Nat
  sha512 : List Nat → List Nat

/-- Modelled from the spec:
`TcgDigest::get_digest_size_from_algorithm_id` of `tcg.rs` (not under
`src/`); the spec section 3 registry: SHA-1 - 20 bytes, SHA-256 - 32,
SHA-384 - 48, SHA-512 - 64. -/
def TcgDigest.get_digest_size_from_algorithm_id (algo_id : Nat) : Nat :=
  if algo_id = TPM_ALG_SHA1 then 20
  else if algo_id = TPM_ALG_SHA256 then 32
  else if algo_id = TPM_ALG_SHA384 then 48
  else if algo_id = TPM_ALG_SHA512 then 64
  else 0

/-- Modelled from the spec:
`TcgDigest::get_algorithm_id_from_digest_size` of `tcg.rs` (not under
`src/`); the digest-size to algorithm reverse lookup of spec
section 4.3. -/
def TcgDigest.get_algorithm_id_from_digest_size (digest_size : Nat) : Nat :=
  if digest_size = 20 then TPM_ALG_SHA1
  else if digest_size = 32 then TPM_ALG_SHA256
  else if digest_size = 48 then TPM_ALG_SHA384
  else if digest_size = 64 then TPM_ALG_SHA512
  else TPM_ALG_ERROR

/-- `TcgEventLog::to_tcg_pcclient_format` of `eventlog.rs`. `none`
embeds the panic of `self.digests[0].hash[0..20].try_into().unwrap()`
on a missing or short first digest. -/
def TcgEventLog.to_tcg_pcclient_format (self : TcgEventLog) : Option EventLogEntry :=
  if self.event_type = EV_NO_ACTION ∧ self.rec_num = 0 ∧ self.imr_index = 0 then
    match self.digests.get? 0 with
    | none => none
    | some d0 =>
      match slice d0.hash 0 20 with
      | none => none
      | some digest20 =>
        some (.tcgPcClientImrEvent
          { imr_index := self.imr_index, event_type := self.event_type,
            digest := digest20, event_size := self.event_size,
            event := self.event })
  else
    some (.tcgImrEvent
      { imr_index := self.imr_index, event_type := self.event_type,
        digests := self.digests, event_size := self.event_size,
        event := self.event })

/-- `TcgEventLog::format_event_log` of `eventlog.rs`: dispatch on the
parse format; the canonical arm (`to_tcg_canonical_format`) and every
other value hit `todo!()`, embedded as `none` (panic). -/
def TcgEventLog.format_event_log (self : TcgEventLog) (parse_format : Nat) :
    Option EventLogEntry :=
  if parse_format = TCG_PCCLIENT_FORMAT then self.to_tcg_pcclient_format
  else none

/-- `EventLogs` of `eventlog.rs`. The Rust field
`event_logs_record_number_list: [u32; 24]` is a fixed-size array; it is
embedded as a list whose length-24 invariant is stated where needed
(`EventLogs.wf`). -/
structure EventLogs where
  spec_id_header_event : TcgEfiSpecIdEvent
  boot_time_data : List Nat
  run_time_data : List String
  event_logs : List EventLogEntry
  count : Nat
  parse_format : Nat
  event_logs_record_number_list : List Nat
  deriving Repr, DecidableEq

/-- The Rust type invariant of `EventLogs`: the per-register counter
array has exactly 24 slots. -/
def EventLogs.wf (self : EventLogs) : Prop :=
  self.event_logs_record_number_list.length = 24

/-- `EventLogs::new` of `eventlog.rs`. -/
def EventLogs.new (boot_time_data : List Nat) (run_time_data : List String)
    (parse_format : Nat) : EventLogs :=
  { spec_id_header_event := TcgEfiSpecIdEvent.new,
    boot_time_data, run_time_data,
    event_logs := [], count := 0, parse_format,
    event_logs_record_number_list := List.replicate 24 0 }

/-- `EventLogs::get_record_number` of `eventlog.rs`: fetch and
post-increment the per-register counter; indexing the 24-slot array out
of range panics. -/
def EventLogs.get_record_number (self : EventLogs) (imr_index : Nat) :
    PResult EventLogs Nat :=
  match self.event_logs_record_number_list.get? imr_index with
  | none => .panicked
  | some rec_num =>
    .ok { self with event_logs_record_number_list :=
            self.event_logs_record_number_list.set imr_index ((rec_num + 1) % u32Mod) }
        rec_num

/-- The algorithm-table loop of `parse_spec_id_event_log` (lines
338-347 of `eventlog.rs`): read `count` pairs of (2-byte algorithm id,
2-byte digest size) starting at `index`; `none` is an out-of-bounds
slice panic. Returns the table and the final cursor. -/
def parseSpecIdAlgoSizes (data : List Nat) :
    Nat → Nat → List TcgEfiSpecIdEventAlgorithmSize →
    Option (List TcgEfiSpecIdEventAlgorithmSize × Nat)
  | index, 0, acc => some (acc, index)
  | index, k + 1, acc =>
    match slice data index 2 with
    | none => none
    | some b1 =>
      let algo_id := get_u16 b1
      match slice data (index + 2) 2 with
      | none => none
      | some b2 =>
        let digest_size := get_u16 b2
        parseSpecIdAlgoSizes data (index + 4) k
          (acc ++ [{ algo_id, digest_size }])

/-- `EventLogs::parse_spec_id_event_log` of `eventlog.rs` (lines
283-373). Note two faithful oddities of the source: `imr_index - 1` is
u32 arithmetic (wrapping in release builds, embedded as
`+ (u32Mod - 1) % u32Mod`), and after reading `header_event_size` the
cursor is NOT advanced past the header event; the nested EFI spec-ID
structure is re-read from the same offset 32. -/
def EventLogs.parse_spec_id_event_log (self : EventLogs) (data : List Nat) :
    PResult EventLogs (TcgEventLog × Nat) :=
  match slice data 0 4 with
  | none => .panicked
  | some b0 =>
    let imr_index := get_u32 b0
    let header_imr := (imr_index + (u32Mod - 1)) % u32Mod
    match slice data 4 4 with
    | none => .panicked
    | some b1 =>
      let header_event_type := get_u32 b1
      match self.get_record_number header_imr with
      | .panicked => .panicked
      | .err s m => .err s m
      | .ok self rec_num =>
        match slice data 8 20 with
        | none => .panicked
        | some digest_hash =>
          let digests : List TcgDigest := [{ algo_id := TPM_ALG_ERROR, hash := digest_hash }]
          match slice data 28 4 with
          | none => .panicked
          | some b2 =>
            let header_event_size := get_u32 b2
            match slice data 32 header_event_size with
            | none => .panicked
            | some header_event =>
              let specification_id_header : TcgEventLog :=
                { rec_num, imr_index := header_imr,
                  event_type := header_event_type, digests,
                  event_size := header_event_size, event := header_event,
                  extra_info := [] }
              -- Parse EFI Spec Id Event structure, starting again at offset 32
              match slice data 32 16 with
              | none => .panicked
              | some spec_id_signature =>
                match slice data 48 4 with
                | none => .panicked
                | some b3 =>
                  let spec_id_platform_cls := get_u32 b3
                  match slice data 52 1 with
                  | none => .panicked
                  | some b4 =>
                    let spec_id_version_minor := get_u8 b4
                    match slice data 53 1 with
                    | none => .panicked
                    | some b5 =>
                      let spec_id_version_major := get_u8 b5
                      match slice data 54 1 with
                      | none => .panicked
                      | some b6 =>
                        let spec_id_errata := get_u8 b6
                        match slice data 55 1 with
                        | none => .panicked
                        | some b7 =>
                          let spec_id_uint_size := get_u8 b7
                          match slice data 56 4 with
                          | none => .panicked
                          | some b8 =>
                            let spec_id_num_of_algo := get_u32 b8
                            match parseSpecIdAlgoSizes data 60 spec_id_num_of_algo [] with
                            | none => .panicked
                            | some (spec_id_digest_sizes, index1) =>
                              match slice data index1 1 with
                              | none => .panicked
                              | some b9 =>
                                let spec_id_vendor_size := get_u8 b9
                                let index2 := index1 + 1
                                match (if spec_id_vendor_size > 0 then
                                         slice data index2 spec_id_vendor_size
                                       else some []) with
                                | none => .panicked
                                | some spec_id_vendor_info =>
                                  let index3 := index2 + spec_id_vendor_size
                                  let self :=
                                    { self with spec_id_header_event :=
                                        { signature := spec_id_signature,
                                          platform_class := spec_id_platform_cls,
                                          spec_version_minor := spec_id_version_minor,
                                          spec_version_major := spec_id_version_major,
                                          spec_errata := spec_id_errata,
                                          uintn_ize := spec_id_uint_size,
                                          number_of_algorithms := spec_id_num_of_algo,
                                          digest_sizes := spec_id_digest_sizes,
                                          vendor_info_size := spec_id_vendor_size,
                                          vendor_info := spec_id_vendor_info } }
                                  -- index.try_into::<u32>().unwrap()
                                  if index3 < u32Mod then
                                    .ok self (specification_id_header, index3)
                                  else .panicked

/-- The digest loop of `parse_event_log` (lines 406-436 of
`eventlog.rs`): for each of `k` digests, read a 2-byte algorithm id,
look it up in the spec-ID header's table (the `while` scan takes the
FIRST matching entry, and `pos == len` means not found), fail with an
explicit error when absent, else read `digest_size` bytes. `panicked`
is an out-of-bounds slice panic. -/
def parseDigests (spec : TcgEfiSpecIdEvent) (data : List Nat) :
    Nat → Nat → List TcgDigest → RResult (List TcgDigest × Nat)
  | index, 0, acc => .ok (acc, index)
  | index, k + 1, acc =>
    match slice data index 2 with
    | none => .panicked
    | some b =>
      let alg_id := get_u16 b
      match spec.digest_sizes.find? (fun a => a.algo_id == alg_id) with
      | none => .err ("[parse_event_log] No algorithm with such algo_id " ++ toString alg_id)
      | some alg =>
        let digest_size := alg.digest_size
        match slice data (index + 2) digest_size with
        | none => .panicked
        | some digest_data =>
          parseDigests spec data (index + 2 + digest_size) k
            (acc ++ [{ algo_id := alg_id, hash := digest_data }])

/-- `EventLogs::parse_event_log` of `eventlog.rs` (lines 391-455):
parse one standard `TCG_PCR_EVENT2`-shaped record. `imr_index -= 1` is
u32 wrapping arithmetic. -/
def EventLogs.parse_event_log (self : EventLogs) (data : List Nat) :
    PResult EventLogs (TcgEventLog × Nat) :=
  match slice data 0 4 with
  | none => .panicked
  | some b0 =>
    let imr_index := (get_u32 b0 + (u32Mod - 1)) % u32Mod
    match slice data 4 4 with
    | none => .panicked
    | some b1 =>
      let event_type := get_u32 b1
      match self.get_record_number imr_index with
      | .panicked => .panicked
      | .err s m => .err s m
      | .ok self rec_num =>
        match slice data 8 4 with
        | none => .panicked
        | some b2 =>
          let digest_count := get_u32 b2
          match parseDigests self.spec_id_header_event data 12 digest_count [] with
          | .panicked => .panicked
          | .err m => .err self m
          | .ok (digests, index1) =>
            match slice data index1 4 with
            | none => .panicked
            | some b3 =>
              let event_size := get_u32 b3
              match slice data (index1 + 4) event_size with
              | none => .panicked
              | some event =>
                let index2 := index1 + 4 + event_size
                -- index.try_into::<u32>().unwrap()
                if index2 < u32Mod then
                  .ok self
                    ({ rec_num, imr_index, event_type, digests, event_size,
                       event, extra_info := [] }, index2)
                else .panicked

/-- Rust `str::split(' ')` over the characters of a line: splits at
every single space, keeping empty fragments; the result is never
empty. -/
def splitOnSpace : List Char → List (List Char)
  | [] => [[]]
  | c :: rest =>
    if c = ' ' then [] :: splitOnSpace rest
    else
      match splitOnSpace rest with
      | [] => [[c]]
      | t :: ts => (c :: t) :: ts

/-- Rust `str::trim_matches(' ')`: strip leading and trailing space
characters. -/
def trimSpaces (s : List Char) : List Char :=
  ((s.dropWhile (fun c => c = ' ')).reverse.dropWhile (fun c => c = ' ')).reverse

/-- Rust `str::parse::<u32>()`: decimal digits (an optional leading plus
sign is accepted), value below `2 ^ 32`; `none` is the `Err` that
`unwrap` turns into a panic. -/
def parseU32 (s : List Char) : Option Nat :=
  let digits := match s with
    | '+' :: rest => rest
    | _ => s
  if digits ≠ [] ∧ digits.all Char.isDigit then
    let v := digits.foldl (fun acc c => acc * 10 + (c.toNat - 48)) 0
    if v < u32Mod then some v else none
  else none

/-- Hexadecimal value of one character. -/
def hexVal (c : Char) : Option Nat :=
  if '0' ≤ c ∧ c ≤ '9' then some (c.toNat - 48)
  else if 'a' ≤ c ∧ c ≤ 'f' then some (c.toNat - 87)
  else if 'A' ≤ c ∧ c ≤ 'F' then some (c.toNat - 55)
  else none

/-- Modelled from the spec: `hex::decode` (the external `hex` crate):
an even-length hex string to bytes; `none` is the decode error that
`expect` turns into a panic. -/
def hexDecode : List Char → Option (List Nat)
  | [] => some []
  | [_] => none
  | c1 :: c2 :: rest =>
    match hexVal c1, hexVal c2, hexDecode rest with
    | some h, some l, some r => some ((16 * h + l) :: r)
    | _, _, _ => none

/-- Rust `Vec` slicing `v[i..]`: panics (`none`) when `i` exceeds the
length. -/
def sliceFrom {α : Type} (l : List α) (i : Nat) : Option (List α) :=
  if i ≤ l.length then some (l.drop i) else none

/-- Join character fragments with single spaces (Rust
`Vec::join(" ")`). -/
def joinSpaces : List (List Char) → List Char
  | [] => []
  | [x] => x
  | x :: y :: rest => x ++ ' ' :: joinSpaces (y :: rest)

/-- `EventLogs::parse_ima_event_log` of `eventlog.rs` (lines 470-506):
parse one runtime ASCII IMA line. Every failure in the source is a
panic (`unwrap`/`expect`/indexing), embedded as `panicked`. -/
def EventLogs.parse_ima_event_log (self : EventLogs) (data : String) :
    PResult EventLogs TcgEventLog :=
  let elements := splitOnSpace (trimSpaces data.toList)
  match elements.get? 0 with
  | none => .panicked
  | some e0 =>
    match parseU32 e0 with
    | none => .panicked
    | some imr_index =>
      match self.get_record_number imr_index with
      | .panicked => .panicked
      | .err s m => .err s m
      | .ok self rec_num =>
        match sliceFrom elements 3 with
        | none => .panicked
        | some tail =>
          let event := (joinSpaces tail).map Char.toNat
          let event_size := event.length
          match elements.get? 1 with
          | none => .panicked
          | some e1 =>
            let digest_size := e1.length / 2
            -- digest_size.try_into::<u8>().unwrap()
            if digest_size ≥ 256 then .panicked
            else
              let algo_id := TcgDigest.get_algorithm_id_from_digest_size digest_size
              match hexDecode e1 with
              | none => .panicked
              | some hash =>
                let digests : List TcgDigest := [{ algo_id, hash }]
                match elements.get? 2 with
                | none => .panicked
                | some e2 =>
                  let extra_info := [("template_name", String.mk e2)]
                  .ok self
                    { rec_num, imr_index,
                      event_type := IMA_MEASUREMENT_EVENT, digests,
                      event_size, event, extra_info }

/-- The boot-time walk of `EventLogs::parse` (lines 205-243 of
`eventlog.rs`). Faithful details: the 4-byte event type at `index + 4`
is read BEFORE the 0xFFFFFFFF sentinel test on the register index, so a
buffer that ends right after a sentinel register index panics; the
spec-ID dispatch requires `event_type == EV_NO_ACTION && count == 0`.
`fuel` only bounds the recursion: every successful record consumes at
least 16 bytes, so `data.length + 1` iterations can never be exhausted
by the loop (`fuel = 0` is unreachable and embedded as `panicked`). -/
def EventLogs.parseBootLoop (data : List Nat) :
    Nat → EventLogs → Nat → PResult EventLogs Unit
  | 0, _, _ => .panicked
  | fuel + 1, self, index =>
    if index < data.length then
      match slice data index 4 with
      | none => .panicked
      | some b0 =>
        let imr := get_u32 b0
        match slice data (index + 4) 4 with
        | none => .panicked
        | some b1 =>
          let event_type := get_u32 b1
          if imr = 4294967295 then .ok self ()
          else if event_type = EV_NO_ACTION ∧ self.count = 0 then
            match self.parse_spec_id_event_log (data.drop index) with
            | .panicked => .panicked
            | .err s e =>
              .err s ("[parse] error in parse_spec_id_event_log function " ++ e)
            | .ok self1 (spec_id_event, event_len) =>
              match spec_id_event.format_event_log self1.parse_format with
              | none => .panicked
              | some entry =>
                EventLogs.parseBootLoop data fuel
                  { self1 with event_logs := self1.event_logs ++ [entry],
                               count := (self1.count + 1) % u32Mod }
                  (index + event_len)
          else
            match self.parse_event_log (data.drop index) with
            | .panicked => .panicked
            | .err s e =>
              .err s ("[parse] error in parse_event_log function " ++ e)
            | .ok self1 (event_log, event_len) =>
              match event_log.format_event_log self1.parse_format with
              | none => .panicked
              | some entry =>
                EventLogs.parseBootLoop data fuel
                  { self1 with event_logs := self1.event_logs ++ [entry],
                               count := (self1.count + 1) % u32Mod }
                  (index + event_len)
    else .ok self ()

/-- The runtime-lines pass of `EventLogs::parse` (lines 245-261 of
`eventlog.rs`): parse and append each IMA line in order. -/
def EventLogs.parseRunLoop : EventLogs → List String → PResult EventLogs Unit
  | self, [] => .ok self ()
  | self, line :: rest =>
    match self.parse_ima_event_log line with
    | .panicked => .panicked
    | .err s e => .err s ("[parse] error in parse_ima_event_log function " ++ e)
    | .ok self1 event_log =>
      match event_log.format_event_log self1.parse_format with
      | none => .panicked
      | some entry =>
        EventLogs.parseRunLoop
          { self1 with event_logs := self1.event_logs ++ [entry],
                       count := (self1.count + 1) % u32Mod }
          rest

/-- `EventLogs::parse` of `eventlog.rs` (lines 200-264): reject empty
boot-time data, walk the binary records, then append each runtime
line. -/
def EventLogs.parse (self : EventLogs) : PResult EventLogs Bool :=
  if self.boot_time_data.isEmpty then
    .err self "[parse] no boot time eventlog provided"
  else
    match EventLogs.parseBootLoop self.boot_time_data
            (self.boot_time_data.length + 1) self 0 with
    | .panicked => .panicked
    | .err s e => .err s e
    | .ok self1 _ =>
      match EventLogs.parseRunLoop self1 self1.run_time_data with
      | .panicked => .panicked
      | .err s e => .err s e
      | .ok self2 _ => .ok self2 true

/-- Rust `Vec` range slicing `v[a..b]` (`to_vec`): panics (`none`) when
`a > b` or `b > v.len()`. -/
def sliceRange {α : Type} (l : List α) (a b : Nat) : Option (List α) :=
  if a ≤ b ∧ b ≤ l.length then some ((l.drop a).take (b - a)) else none

/-- The tail of `EventLogs::select` after `begin` has been fixed (lines
161-176 of `eventlog.rs`): resolve `end` from the requested count —
`Some 0` is an explicit error, a u32 sum `count + begin` beyond the
total is clamped to the full length — then slice the record list. -/
def EventLogs.selectEnd (self : EventLogs) (begin_ : Nat) (count : Option Nat) :
    PResult EventLogs (List EventLogEntry) :=
  match count with
  | some c =>
    if c = 0 then
      .err self "[select] Invalid input count. count must be number larger than 0!"
    else
      let e := if (c + begin_) % u32Mod > self.count
               then self.event_logs.length
               else (c + begin_) % u32Mod
      match sliceRange self.event_logs begin_ e with
      | none => .panicked
      | some v => .ok self v
  | none =>
    match sliceRange self.event_logs begin_ self.event_logs.length with
    | none => .panicked
    | some v => .ok self v

/-- `EventLogs::select` of `eventlog.rs` (lines 136-177): run `parse`
(every call re-runs it), then resolve `start`: beyond the total count is
an error, equal to the total count short-circuits to an empty result
(before the count argument is even examined). -/
def EventLogs.select (self : EventLogs) (start count : Option Nat) :
    PResult EventLogs (List EventLogEntry) :=
  match self.parse with
  | .panicked => .panicked
  | .err s e => .err s ("[select] error in parse function " ++ e)
  | .ok self1 _ =>
    match start with
    | some s =>
      if s > self1.count then
        .err self1 "[select] Invalid input start. Start must be number no bigger than total event log count!"
      else if s = self1.count then .ok self1 []
      else self1.selectEnd s count
    | none => self1.selectEnd 0 count

/-- The `imr_pos` scan of `EventLogs::replay` (lines 536-540 of
`eventlog.rs`): the loop assigns without breaking, so it yields the
LAST index whose `imr_index` matches. -/
def lastIdxWithImr (results : List ReplayResult) (imr_index : Nat) : Option Nat :=
  (List.range results.length).foldl
    (fun acc index1 =>
      if (results.getD index1 { imr_index := 0, digests := [] }).imr_index = imr_index
      then some index1 else acc)
    none

/-- The hash dispatch of `EventLogs::replay` (lines 567-593 of
`eventlog.rs`): the four supported algorithm ids map to their hash
functions, every other id (`0..=3 | 5..=10 | 14..=u16::MAX`) is a
no-op. -/
def hashForAlgo (H : HashFns) (algo_id : Nat) : Option (List Nat → List Nat) :=
  if algo_id = TPM_ALG_SHA1 then some H.sha1
  else if algo_id = TPM_ALG_SHA256 then some H.sha256
  else if algo_id = TPM_ALG_SHA384 then some H.sha384
  else if algo_id = TPM_ALG_SHA512 then some H.sha512
  else none

/-- One digest of one standard record in `EventLogs::replay` (lines
529-593 of `eventlog.rs`). Faithful to the source, including its
`algo_pos` scan (line 550): the loop condition is
`digest.algo_id == algo_id`, where `algo_id` was bound to
`digest.algo_id` a few lines above — a self-comparison that is true at
every iteration, so `algo_pos` ends at the LAST index of the register's
digest list, whatever algorithm that entry carries. -/
def replayOneDigest (H : HashFns) (results : List ReplayResult)
    (imr_index : Nat) (digest : TcgDigest) : List ReplayResult :=
  let algo_id := digest.algo_id
  let hash := digest.hash
  let digest_size := TcgDigest.get_digest_size_from_algorithm_id algo_id
  let imr_pos0 := lastIdxWithImr results imr_index
  let (results1, imr_pos, algo_pos0) :=
    match imr_pos0 with
    | none =>
      (results ++ [({ imr_index, digests := [] } : ReplayResult)], results.length,
       (none : Option Nat))
    | some imr_pos =>
      let dlen := (results.getD imr_pos { imr_index := 0, digests := [] }).digests.length
      let algo_pos := (List.range dlen).foldl
        (fun acc index2 => if digest.algo_id = algo_id then some index2 else acc)
        (none : Option Nat)
      (results, imr_pos, algo_pos)
  let (results2, algo_pos) :=
    match algo_pos0 with
    | none =>
      let results2 := modifyIdx results1 imr_pos
        (fun r =>
          { r with digests := r.digests ++
              [({ algo_id, hash := List.replicate digest_size 0 } : TcgDigest)] })
      (results2,
       ((results2.getD imr_pos { imr_index := 0, digests := [] }).digests.length) - 1)
    | some p => (results1, p)
  let cur := ((results2.getD imr_pos { imr_index := 0, digests := [] }).digests.getD
    algo_pos { algo_id := 0, hash := [] }).hash
  let hash_input_data := cur ++ hash
  match hashForAlgo H algo_id with
  | some f =>
    modifyIdx results2 imr_pos
      (fun r =>
        { r with digests := modifyIdx r.digests algo_pos
                              (fun d => { d with hash := f hash_input_data }) })
  | none => results2

/-- One event of `EventLogs::replay` (lines 522-598 of `eventlog.rs`):
no-action standard records and PC-Client header events are skipped;
canonical events hit `todo!()` (a panic). -/
def replayStep (H : HashFns) (results : List ReplayResult) :
    EventLogEntry → RResult (List ReplayResult)
  | .tcgImrEvent e =>
    if e.event_type = EV_NO_ACTION then .ok results
    else
      .ok (e.digests.foldl
        (fun rs digest => replayOneDigest H rs e.imr_index digest) results)
  | .tcgPcClientImrEvent _ => .ok results
  | .tcgCanonicalEvent _ => .panicked

/-- The event iteration of `EventLogs::replay`. -/
def replayLoop (H : HashFns) (results : List ReplayResult) :
    List EventLogEntry → RResult (List ReplayResult)
  | [] => .ok results
  | e :: rest =>
    match replayStep H results e with
    | .ok results1 => replayLoop H results1 rest
    | .err m => .err m
    | .panicked => .panicked

/-- `EventLogs::replay` of `eventlog.rs` (lines 519-601), parameterized
over the external hash registry `H`. -/
def EventLogs.replay (H : HashFns) (eventlogs : List EventLogEntry) :
    RResult (List ReplayResult) :=
  replayLoop H [] eventlogs

/-- `TcgTpmsCelEvent` of `tcgcel.rs`: a canonical (CEL) event record.
Rust `i32` fields become `Int`; the `Box<dyn Any>` content is never
inspected by `encode`, so it is opaque (`Unit`). -/
structure TcgTpmsCelEvent where
  rec_num : Int
  digests : List TcgDigest
  content_type : Option Int
  imr : Option Int
  nv_index : Option Int
  content : Option Unit
  encoding : Option String
  deriving Repr, DecidableEq

/-- `TcgTpmiCelContentType::is_valid_content` of `tcgcel.rs`: membership
in the content table {CEL = 4, PCCLIENT_STD = 5, IMA_TEMPLATE = 7,
IMA_TLV = 8}. -/
def TcgTpmiCelContentType.is_valid_content (content_type : Int) : Bool :=
  content_type == 4 || content_type == 5 || content_type == 7 || content_type == 8

/-- `TcgTpmsCelEvent::new` of `tcgcel.rs` (lines 20-64): both indices
set, or an invalid content type, downgrade the object to an
unusable/empty state instead of failing. -/
def TcgTpmsCelEvent.new (rec_num : Int) (digests : List TcgDigest)
    (content_type : Option Int) (imr nv_index : Option Int)
    (content : Option Unit) : TcgTpmsCelEvent :=
  if imr.isSome ∧ nv_index.isSome then
    { rec_num, digests, content_type, imr := none, nv_index := none,
      content := none, encoding := none }
  else
    let content_type1 := content_type.getD 0
    if ¬ TcgTpmiCelContentType.is_valid_content content_type1 then
      { rec_num, digests, content_type := none, imr := none,
        nv_index := none, content := none, encoding := none }
    else
      { rec_num, digests, content_type := some content_type1, imr,
        nv_index, content, encoding := none }

/-- `TcgTpmsCelEvent::encoded_in_tlv` of `tcgcel.rs` (lines 218-258).
The local `TcgCelRecnum`/`TcgCelDigests`/`TcgCelImrNvindex` TLV objects
the source builds are dropped at return and their setters do not touch
`obj`; the observable effects on `obj` are `set_rec_num(obj.rec_num)`,
`set_digests` with a field-by-field copy of its own digests, the
matching index setter — and the panic of `obj.nv_index.unwrap()` when
the record carries neither an IMR nor an NV index (`none` here). -/
def TcgTpmsCelEvent.encoded_in_tlv (self obj : TcgTpmsCelEvent) :
    Option TcgTpmsCelEvent :=
  let obj1 := { obj with rec_num := obj.rec_num }
  let d_list := obj1.digests.map
    (fun digest => ({ algo_id := digest.algo_id, hash := digest.hash } : TcgDigest))
  let obj2 := { obj1 with digests := d_list }
  match obj2.imr with
  | some imr => some { obj2 with imr := some imr }
  | none =>
    match obj2.nv_index with
    | none => none
    | some nv => some { obj2 with nv_index := some nv }

/-- `TcgTpmsCelEvent::encoded_in_cbor` of `tcgcel.rs`: an acknowledged
placeholder returning the record unchanged. -/
def TcgTpmsCelEvent.encoded_in_cbor (self obj : TcgTpmsCelEvent) :
    TcgTpmsCelEvent := obj

/-- `TcgTpmsCelEvent::encoded_in_json` of `tcgcel.rs`: an acknowledged
placeholder returning the record unchanged. -/
def TcgTpmsCelEvent.encoded_in_json (self obj : TcgTpmsCelEvent) :
    TcgTpmsCelEvent := obj

/-- `TcgTpmsCelEvent::encode` of `tcgcel.rs` (lines 151-171): dispatch
on the numeric encoding selector; 2 is TLV, 3 is JSON, 4 is CBOR, and
every other value prints a complaint and falls back to the TLV path
with the encoding tag set to TLV. -/
def TcgTpmsCelEvent.encode (self obj : TcgTpmsCelEvent) (encoding : Int) :
    Option TcgTpmsCelEvent :=
  if encoding = 2 then
    self.encoded_in_tlv { obj with encoding := some "TLV" }
  else if encoding = 3 then
    some (self.encoded_in_json { obj with encoding := some "JSON" })
  else if encoding = 4 then
    some (self.encoded_in_cbor { obj with encoding := some "CBOR" })
  else
    self.encoded_in_tlv { obj with encoding := some "TLV" }

/-! ## Helper lemmas -/

theorem get_u32_u32le (n : Nat) : get_u32 (u32le n) = n % u32Mod := by
  simp only [get_u32, u32le, leBytesToNat, List.foldr, u32Mod]
  omega

theorem get_u16_u16le (n : Nat) : get_u16 (u16le n) = n % 2 ^ 16 := by
  simp only [get_u16, u16le, leBytesToNat, List.foldr]
  omega

theorem slice_front (l r : List Nat) : slice (l ++ r) 0 l.length = some l := by
  simp [slice]

theorem slice_shift (l r : List Nat) (i n : Nat) :
    slice (l ++ r) (l.length + i) n = slice r i n := by
  simp only [slice, List.length_append, List.drop_append_eq_append_drop]
  have h1 : l.length + i + n ≤ l.length + r.length ↔ i + n ≤ r.length := by omega
  rw [if_congr h1 rfl rfl]
  have h2 : l.drop (l.length + i) = [] := by
    apply List.drop_eq_nil_of_le; omega
  have h3 : l.length + i - l.length = i := by omega
  rw [h2, h3, List.nil_append]

theorem grn_ok (st : EventLogs) (i : Nat)
    (h : i < st.event_logs_record_number_list.length) :
    ∃ st2 v, st.get_record_number i = .ok st2 v ∧
      st2.spec_id_header_event = st.spec_id_header_event ∧
      st2.event_logs = st.event_logs ∧
      st2.count = st.count ∧
      st2.parse_format = st.parse_format ∧
      st2.boot_time_data = st.boot_time_data ∧
      st2.run_time_data = st.run_time_data ∧
      st2.event_logs_record_number_list.length =
        st.event_logs_record_number_list.length := by
  rcases hg : st.event_logs_record_number_list.get? i with _ | v
  · rw [List.get?_eq_none] at hg; omega
  · refine ⟨{ st with event_logs_record_number_list :=
        st.event_logs_record_number_list.set i ((v + 1) % u32Mod) },
      v, ?_, rfl, rfl, rfl, rfl, rfl, rfl, by simp⟩
    unfold EventLogs.get_record_number
    rw [hg]

theorem grn_panics (st : EventLogs) (i : Nat)
    (h : st.event_logs_record_number_list.length ≤ i) :
    st.get_record_number i = .panicked := by
  have hg : st.event_logs_record_number_list.get? i = none :=
    List.get?_eq_none.mpr h
  unfold EventLogs.get_record_number
  rw [hg]

theorem modifyIdx_map_eq {α β : Type} (g : α → β) (f : α → α)
    (h : ∀ x, g (f x) = g x) :
    ∀ (l : List α) (i : Nat), (modifyIdx l i f).map g = l.map g := by
  intro l
  induction l with
  | nil => intro i; rfl
  | cons a as ih =>
    intro i
    cases i with
    | zero => simp [modifyIdx, h]
    | succ n => simp [modifyIdx, ih n]

theorem modifyIdx_digests_map_imr (l : List ReplayResult) (i : Nat)
    (f : ReplayResult → List TcgDigest) :
    (modifyIdx l i (fun r => { r with digests := f r })).map ReplayResult.imr_index =
      l.map ReplayResult.imr_index :=
  modifyIdx_map_eq ReplayResult.imr_index
    (fun r => { r with digests := f r }) (fun _ => rfl) l i

theorem foldl_option_last (n : Nat) :
    (List.range n).foldl (fun _ index2 => some index2) (none : Option Nat) =
      if n = 0 then none else some (n - 1) := by
  induction n with
  | zero => rfl
  | succ m _ =>
    rw [List.range_succ, List.foldl_append]
    simp

/-- The registers named in the output of `replayOneDigest` are those of
the input, with the processed record's register possibly appended (the
hash updates only ever rewrite a `digests` field). -/
theorem replayOneDigest_map_imr (H : HashFns) (results : List ReplayResult)
    (imr_index : Nat) (digest : TcgDigest) :
    (replayOneDigest H results imr_index digest).map ReplayResult.imr_index =
      results.map ReplayResult.imr_index ∨
    (replayOneDigest H results imr_index digest).map ReplayResult.imr_index =
      results.map ReplayResult.imr_index ++ [imr_index] := by
  unfold replayOneDigest
  rcases h1 : lastIdxWithImr results imr_index with _ | p
  · right
    simp only [h1]
    rcases h2 : hashForAlgo H digest.algo_id with _ | f
    · simp only [h2]
      rw [modifyIdx_digests_map_imr]
      simp
    · simp only [h2]
      rw [modifyIdx_digests_map_imr, modifyIdx_digests_map_imr]
      simp
  · left
    simp only [h1, eq_self_iff_true, if_true, foldl_option_last]
    by_cases hd : (results.getD p { imr_index := 0, digests := [] }).digests.length = 0
    · simp only [if_pos hd]
      rcases h2 : hashForAlgo H digest.algo_id with _ | f
      · simp only [h2]
        rw [modifyIdx_digests_map_imr]
      · simp only [h2]
        rw [modifyIdx_digests_map_imr, modifyIdx_digests_map_imr]
    · simp only [if_neg hd]
      rcases h2 : hashForAlgo H digest.algo_id with _ | f
      · simp only [h2]
      · simp only [h2]
        rw [modifyIdx_digests_map_imr]

/-- A register different from the processed one gains no entry. -/
theorem replayOneDigest_absent (H : HashFns) (results : List ReplayResult)
    (imr_index reg : Nat) (digest : TcgDigest) (h : imr_index ≠ reg)
    (hres : reg ∉ results.map ReplayResult.imr_index) :
    reg ∉ (replayOneDigest H results imr_index digest).map ReplayResult.imr_index := by
  rcases replayOneDigest_map_imr H results imr_index digest with he | he <;> rw [he]
  · exact hres
  · intro hmem
    rcases List.mem_append.mp hmem with hmem | hmem
    · exact hres hmem
    · exact h (List.mem_singleton.mp hmem).symm

theorem foldl_digests_absent (H : HashFns) (imr_index reg : Nat)
    (h : imr_index ≠ reg) :
    ∀ (ds : List TcgDigest) (results : List ReplayResult),
      reg ∉ results.map ReplayResult.imr_index →
      reg ∉ ((ds.foldl (fun rs digest => replayOneDigest H rs imr_index digest)
        results).map ReplayResult.imr_index) := by
  intro ds
  induction ds with
  | nil => intro results hres; exact hres
  | cons d ds ih =>
    intro results hres
    rw [List.foldl_cons]
    exact ih _ (replayOneDigest_absent H results imr_index reg d h hres)

/-- Replay never creates an entry for a register that no standard
record names. -/
theorem replayLoop_absent (H : HashFns) (reg : Nat) :
    ∀ (evs : List EventLogEntry) (results out : List ReplayResult),
      (∀ e ∈ evs, ∀ t : TcgImrEvent, e = .tcgImrEvent t → t.imr_index ≠ reg) →
      reg ∉ results.map ReplayResult.imr_index →
      replayLoop H results evs = .ok out →
      reg ∉ out.map ReplayResult.imr_index := by
  intro evs
  induction evs with
  | nil =>
    intro results out _ hres hloop
    simp only [replayLoop] at hloop
    cases hloop
    exact hres
  | cons e rest ih =>
    intro results out hevs hres hloop
    have hevs_rest : ∀ e0 ∈ rest, ∀ t : TcgImrEvent,
        e0 = .tcgImrEvent t → t.imr_index ≠ reg :=
      fun e0 he0 t het => hevs e0 (List.mem_cons_of_mem e he0) t het
    cases e with
    | tcgImrEvent t =>
      have ht : t.imr_index ≠ reg :=
        hevs _ (List.mem_cons_self _ _) t rfl
      simp only [replayLoop, replayStep] at hloop
      by_cases hna : t.event_type = EV_NO_ACTION
      · rw [if_pos hna] at hloop
        exact ih results out hevs_rest hres hloop
      · rw [if_neg hna] at hloop
        exact ih _ out hevs_rest
          (foldl_digests_absent H t.imr_index reg ht t.digests results hres) hloop
    | tcgPcClientImrEvent t =>
      simp only [replayLoop, replayStep] at hloop
      exact ih results out hevs_rest hres hloop
    | tcgCanonicalEvent u =>
      simp only [replayLoop, replayStep] at hloop
      exact RResult.noConfusion hloop

/-- Replay of a list that contains a canonical record reaches its
`todo!()` and panics, whatever came before. -/
theorem replayLoop_canonical (H : HashFns) :
    ∀ (evs : List EventLogEntry) (results : List ReplayResult),
      (∃ e ∈ evs, e = .tcgCanonicalEvent ()) →
      replayLoop H results evs = .panicked := by
  intro evs
  induction evs with
  | nil =>
    intro res h
    rcases h with ⟨e, he, _⟩
    simp at he
  | cons e rest ih =>
    intro res h
    rcases h with ⟨e0, he0, hcan⟩
    rcases List.mem_cons.mp he0 with heq | hmem
    · rw [← heq, hcan]
      simp [replayLoop, replayStep]
    · cases e with
      | tcgImrEvent t =>
        simp only [replayLoop, replayStep]
        by_cases hna : t.event_type = EV_NO_ACTION
        · rw [if_pos hna]
          exact ih res ⟨e0, hmem, hcan⟩
        · rw [if_neg hna]
          exact ih _ ⟨e0, hmem, hcan⟩
      | tcgPcClientImrEvent t =>
        simp only [replayLoop, replayStep]
        exact ih res ⟨e0, hmem, hcan⟩
      | tcgCanonicalEvent u =>
        simp [replayLoop, replayStep]

/-- A concrete instance of the hash registry used to evaluate closed
statements (the identity in every slot). -/
def trivHash : HashFns :=
  { sha1 := fun l => l, sha256 := fun l => l,
    sha384 := fun l => l, sha512 := fun l => l }

/-! ## Claim theorems -/

/-- C1: replay of two standard records on register 3, each carrying one
SHA-256 digest (`d1` then `d2`), yields for register 3 / SHA-256 exactly
`sha256(sha256(zero32 || d1) || d2)` with `zero32` the 32-byte zero
reset value, each step hashing the running value concatenated with the
newly recorded digest; and a register named by no standard record gets
no entry in the replay result at all. -/
theorem replay_sha256_chain_and_untouched_register (H : HashFns)
    (d1 d2 : List Nat) (et1 et2 sz1 sz2 : Nat) (ev1 ev2 : List Nat)
    (h1 : et1 ≠ EV_NO_ACTION) (h2 : et2 ≠ EV_NO_ACTION) :
    (EventLogs.replay H
      [.tcgImrEvent
        { imr_index := 3, event_type := et1,
          digests := [{ algo_id := TPM_ALG_SHA256, hash := d1 }],
          event_size := sz1, event := ev1 },
       .tcgImrEvent
        { imr_index := 3, event_type := et2,
          digests := [{ algo_id := TPM_ALG_SHA256, hash := d2 }],
          event_size := sz2, event := ev2 }] =
    .ok [{ imr_index := 3,
           digests := [{ algo_id := TPM_ALG_SHA256,
                         hash := H.sha256 (H.sha256 (List.replicate 32 0 ++ d1) ++ d2) }] }]) ∧
    (∀ (evs : List EventLogEntry) (reg : Nat) (res : List ReplayResult),
      (∀ e ∈ evs, ∀ t : TcgImrEvent, e = .tcgImrEvent t → t.imr_index ≠ reg) →
      EventLogs.replay H evs = .ok res →
      ∀ r ∈ res, r.imr_index ≠ reg) := by
  constructor
  · simp only [EventLogs.replay, replayLoop, replayStep, if_neg h1, if_neg h2]
    rfl
  · intro evs reg res hevs hrep r hr heq
    have habs : reg ∉ res.map ReplayResult.imr_index :=
      replayLoop_absent H reg evs [] res hevs (by simp) hrep
    exact habs (heq ▸ List.mem_map_of_mem ReplayResult.imr_index hr)

/-- C1 witness: the chained-hash conjunct evaluated at concrete inputs
(register 3, digests `[9]` then `[8]`, identity hash functions). -/
theorem replay_sha256_chain_and_untouched_register_witness :
    EventLogs.replay trivHash
      [.tcgImrEvent
        { imr_index := 3, event_type := 1,
          digests := [{ algo_id := TPM_ALG_SHA256, hash := [9] }],
          event_size := 0, event := [] },
       .tcgImrEvent
        { imr_index := 3, event_type := 1,
          digests := [{ algo_id := TPM_ALG_SHA256, hash := [8] }],
          event_size := 0, event := [] }] =
    .ok [{ imr_index := 3,
           digests := [{ algo_id := TPM_ALG_SHA256,
                         hash := trivHash.sha256 (trivHash.sha256 (List.replicate 32 0 ++ [9]) ++ [8]) }] }] :=
  (replay_sha256_chain_and_untouched_register trivHash [9] [8] 1 1 0 0 [] []
    (by decide) (by decide)).1

/-- C2: the `algo_pos` scan of replay compares `digest.algo_id` with
itself (line 550 of `eventlog.rs`), so a standard record carrying a
SHA-1 digest `d1` and then a SHA-256 digest `d2` on one register does
NOT keep two independent per-algorithm chains: the SHA-256 extend lands
on the just-created SHA-1 entry, leaving a single entry still tagged
SHA-1 whose value is `sha256(sha1(zero20 || d1) || d2)`. This evaluates
the code at that failing input. -/
theorem replay_merges_distinct_algorithms_into_last_entry (H : HashFns)
    (d1 d2 : List Nat) :
    EventLogs.replay H
      [.tcgImrEvent
        { imr_index := 0, event_type := 1,
          digests := [{ algo_id := TPM_ALG_SHA1, hash := d1 },
                      { algo_id := TPM_ALG_SHA256, hash := d2 }],
          event_size := 0, event := [] }] =
    .ok [{ imr_index := 0,
           digests := [{ algo_id := TPM_ALG_SHA1,
                         hash := H.sha256 (H.sha1 (List.replicate 20 0 ++ d1) ++ d2) }] }] := rfl

/-- C8 counterexample: replay of a log containing a canonical-format
record does not return an error value the caller can recognize — it
panics (the `todo!()` arm), refuting the claim that an explicit
"unsupported" failure is returned rather than abnormal termination. -/
theorem canonical_replay_panics_concrete :
    EventLogs.replay trivHash [.tcgCanonicalEvent ()] = .panicked := rfl

/-- C8 amended: for every input sequence containing a canonical-format
record, replay terminates abnormally (the `todo!()` panic) — it never
returns `ok`, so results are never silently corrupted, but the failure
is a panic rather than a recognizable error value. -/
theorem canonical_event_replay_never_ok (H : HashFns)
    (evs : List EventLogEntry)
    (h : ∃ e ∈ evs, e = .tcgCanonicalEvent ()) :
    EventLogs.replay H evs = .panicked :=
  replayLoop_canonical H evs [] h

/-- C8 witness: the amended theorem applied to a log holding a header
event followed by a canonical record. -/
theorem canonical_event_replay_never_ok_witness :
    EventLogs.replay trivHash
      [.tcgPcClientImrEvent
        { imr_index := 0, event_type := 3, digest := [],
          event_size := 0, event := [] },
       .tcgCanonicalEvent ()] = .panicked :=
  canonical_event_replay_never_ok trivHash _
    ⟨.tcgCanonicalEvent (), by simp, rfl⟩

/-- C3: contrary to the spec, truncated input does not surface an
explicit error. Both parsers terminate abnormally: an 8-byte buffer
(register index 1, event type 3) makes `parse_spec_id_event_log` panic
indexing the 20-byte digest field, and an 8-byte buffer (register
index 1, event type 1) makes `parse_event_log` panic indexing the
4-byte digest-count field. Neither returns `Err`. -/
theorem truncated_input_panics_not_error :
    (EventLogs.new [] [] 1).parse_spec_id_event_log [1, 0, 0, 0, 3, 0, 0, 0] =
      .panicked ∧
    (EventLogs.new [] [] 1).parse_event_log [1, 0, 0, 0, 1, 0, 0, 0] =
      .panicked :=
  ⟨rfl, rfl⟩

/-- A 16-byte boot blob holding one standard record: register field 1
(normalized to register 0), event type 1, zero digests, zero event
bytes. -/
def c4Blob : List Nat := [1, 0, 0, 0, 1, 0, 0, 0, 0, 0, 0, 0, 0, 0, 0, 0]

/-- Observation of two consecutive `select(None, None)` calls on one
collection: the record count and returned length after the first call,
then after the second. -/
def selectTwiceObserved (st : EventLogs) : Option (Nat × Nat × Nat × Nat) :=
  match st.select none none with
  | .ok st1 l1 =>
    match st1.select none none with
    | .ok st2 l2 => some (st1.count, l1.length, st2.count, l2.length)
    | _ => none
  | _ => none

/-- C4: `parse` has no guard against re-parsing, so a second `select`
(which re-runs `parse`) walks the boot blob again and re-appends every
record: after the first call the collection holds 1 record and returns
1, after the second it holds 2 records and returns 2. -/
theorem second_select_reappends_records :
    selectTwiceObserved (EventLogs.new c4Blob [] 1) = some (1, 1, 2, 2) := rfl

/-- C9: a per-register counter index of 24 or more indexes past the
fixed 24-slot array, so record-number assignment panics — for
`get_record_number` itself, for a binary record whose normalized
register index (the u32 register field minus one, wrapping) is at least
24, and for a runtime IMA line naming register 25. The result is the
panic value, never an `Err`. -/
theorem register_index_past_24_panics :
    (∀ (st : EventLogs) (i : Nat), st.wf → 24 ≤ i →
      st.get_record_number i = .panicked) ∧
    (∀ (st : EventLogs) (imr : Nat) (rest : List Nat), st.wf →
      imr < u32Mod → 24 ≤ (imr + (u32Mod - 1)) % u32Mod →
      4 ≤ rest.length →
      st.parse_event_log (u32le imr ++ rest) = .panicked) ∧
    (∀ st : EventLogs, st.wf →
      st.parse_ima_event_log "25 aa bb cc" = .panicked) := by
  refine ⟨?_, ?_, ?_⟩
  · intro st i hwf hi
    exact grn_panics st i (by rw [hwf]; omega)
  · intro st imr rest hwf himr h24 hrest
    unfold EventLogs.parse_event_log
    have hs0 : slice (u32le imr ++ rest) 0 4 = some (u32le imr) :=
      slice_front (u32le imr) rest
    have hu : get_u32 (u32le imr) = imr := by
      rw [get_u32_u32le]
      exact Nat.mod_eq_of_lt himr
    have hs1 : slice (u32le imr ++ rest) 4 4 = slice rest 0 4 :=
      slice_shift (u32le imr) rest 0 4
    have hs1v : slice rest 0 4 = some ((rest.drop 0).take 4) := by
      unfold slice
      rw [if_pos (by omega)]
    have hg : st.get_record_number ((imr + (u32Mod - 1)) % u32Mod) = .panicked :=
      grn_panics st _ (by rw [hwf]; omega)
    simp only [hs0, hu, hs1, hs1v, hg]
  · intro st hwf
    have h25 : st.get_record_number 25 = .panicked :=
      grn_panics st 25 (by rw [hwf]; omega)
    have he : splitOnSpace (trimSpaces ("25 aa bb cc".toList)) =
        [['2', '5'], ['a', 'a'], ['b', 'b'], ['c', 'c']] := by decide
    have hp : parseU32 ['2', '5'] = some 25 := by decide
    simp only [EventLogs.parse_ima_event_log, he, List.get?_cons_zero, hp, h25]

/-- C9 witness: the three conjuncts at concrete inputs — counter slot
24 on a fresh collection, a binary record with register field 25
(normalized 24), and the IMA line for register 25. -/
theorem register_index_past_24_panics_witness :
    (EventLogs.new [] [] 1).get_record_number 24 = .panicked ∧
    (EventLogs.new [] [] 1).parse_event_log (u32le 25 ++ [0, 0, 0, 0]) =
      .panicked ∧
    (EventLogs.new [] [] 1).parse_ima_event_log "25 aa bb cc" = .panicked :=
  ⟨register_index_past_24_panics.1 (EventLogs.new [] [] 1) 24 rfl
     (by decide),
   register_index_past_24_panics.2.1 (EventLogs.new [] [] 1) 25 [0, 0, 0, 0]
     rfl (by decide) (by decide) (by decide),
   register_index_past_24_panics.2.2 (EventLogs.new [] [] 1) rfl⟩

/-- A CEL record carrying neither an IMR index nor an NV index (the
degraded state `TcgTpmsCelEvent::new` produces when both are given). -/
def celNoIdx : TcgTpmsCelEvent :=
  { rec_num := 0, digests := [], content_type := some 5, imr := none,
    nv_index := none, content := none, encoding := none }

/-- A CEL record carrying an IMR index. -/
def celWithImr : TcgTpmsCelEvent :=
  { rec_num := 0, digests := [], content_type := some 5, imr := some 2,
    nv_index := none, content := none, encoding := none }

/-- C10 counterexample: with an invalid selector (0), a record carrying
neither index makes the TLV fallback panic (`obj.nv_index.unwrap()`),
so encode does NOT return an encoded record for every record and
invalid selector. -/
theorem encode_fallback_without_index_panics :
    celNoIdx.encode celNoIdx 0 = none := rfl

/-- C10 amended: for every encoding selector other than 2, 3, 4, and
every record that carries an IMR or an NV index, `encode` falls back to
the TLV path, sets the encoding tag to "TLV", and returns the encoded
record — the invalid selector is never reported as an error; a record
with neither index instead panics in the fallback (see the
counterexample). -/
theorem encode_invalid_selector_falls_back_to_tlv
    (self obj : TcgTpmsCelEvent) (sel : Int)
    (h2 : sel ≠ 2) (h3 : sel ≠ 3) (h4 : sel ≠ 4)
    (hidx : obj.imr.isSome ∨ obj.nv_index.isSome) :
    self.encode obj sel = some { obj with encoding := some "TLV" } := by
  unfold TcgTpmsCelEvent.encode
  rw [if_neg h2, if_neg h3, if_neg h4]
  obtain ⟨rn, dg, ct, im, nv, co, en⟩ := obj
  unfold TcgTpmsCelEvent.encoded_in_tlv
  rcases im with _ | i
  · rcases nv with _ | n
    · simp at hidx
    · simp [List.map_id]
  · simp [List.map_id]

/-- C10 witness: the amended theorem at selector 0 on a record carrying
an IMR index. -/
theorem encode_invalid_selector_falls_back_to_tlv_witness :
    celWithImr.encode celWithImr 0 =
      some { celWithImr with encoding := some "TLV" } :=
  encode_invalid_selector_falls_back_to_tlv celWithImr celWithImr 0
    (by decide) (by decide) (by decide) (Or.inl rfl)

/-- `(r : RResult α).isErr` holds exactly when the call returned `Err`. -/
def RResult.isErr {α : Type} : RResult α → Prop
  | .err _ => True
  | _ => False

/-- A standard record whose next digest names an algorithm absent from
the spec-ID table makes `parse_event_log` return `Err` without touching
the accumulated records (the per-register counter was already
post-incremented, but nothing is appended). -/
theorem parse_event_log_undeclared_algo_err (st : EventLogs)
    (imr et dc alg : Nat) (rest : List Nat)
    (hwf : st.wf) (h1 : 1 ≤ imr) (h2 : imr ≤ 24)
    (hdc : 1 ≤ dc) (hdc2 : dc < u32Mod) (halg : alg < 2 ^ 16)
    (htab : ∀ a ∈ st.spec_id_header_event.digest_sizes, a.algo_id ≠ alg) :
    ∃ st2 m,
      st.parse_event_log
        (u32le imr ++ (u32le et ++ (u32le dc ++ (u16le alg ++ rest)))) =
        .err st2 m ∧
      st2.event_logs = st.event_logs ∧ st2.count = st.count := by
  have hsA : slice (u32le imr ++ (u32le et ++ (u32le dc ++ (u16le alg ++ rest)))) 0 4 =
      some (u32le imr) := slice_front _ _
  have hsB : slice (u32le imr ++ (u32le et ++ (u32le dc ++ (u16le alg ++ rest)))) 4 4 =
      some (u32le et) :=
    (slice_shift (u32le imr) _ 0 4).trans (slice_front _ _)
  have hsC : slice (u32le imr ++ (u32le et ++ (u32le dc ++ (u16le alg ++ rest)))) 8 4 =
      some (u32le dc) :=
    (slice_shift (u32le imr) _ 4 4).trans
      ((slice_shift (u32le et) _ 0 4).trans (slice_front _ _))
  have hsD : slice (u32le imr ++ (u32le et ++ (u32le dc ++ (u16le alg ++ rest)))) 12 2 =
      some (u16le alg) :=
    (slice_shift (u32le imr) _ 8 2).trans
      ((slice_shift (u32le et) _ 4 2).trans
        ((slice_shift (u32le dc) _ 0 2).trans (slice_front _ _)))
  have hvA : get_u32 (u32le imr) = imr := by
    rw [get_u32_u32le]
    exact Nat.mod_eq_of_lt (by simp only [u32Mod]; omega)
  have hvC : get_u32 (u32le dc) = dc := by
    rw [get_u32_u32le]
    exact Nat.mod_eq_of_lt hdc2
  have hvD : get_u16 (u16le alg) = alg := by
    rw [get_u16_u16le]
    exact Nat.mod_eq_of_lt halg
  have hnorm : (imr + (u32Mod - 1)) % u32Mod = imr - 1 := by
    simp only [u32Mod]; omega
  obtain ⟨st2, v, hgrn, hspec, hlogs, hcount, _, _, _, _⟩ :=
    grn_ok st (imr - 1) (by rw [hwf]; omega)
  obtain ⟨k, rfl⟩ : ∃ k, dc = k + 1 := ⟨dc - 1, by omega⟩
  have hfind : st2.spec_id_header_event.digest_sizes.find?
      (fun a => a.algo_id == alg) = none := by
    rw [List.find?_eq_none]
    intro a ha
    rw [hspec] at ha
    simpa using htab a ha
  have hmain : st.parse_event_log
      (u32le imr ++ (u32le et ++ (u32le (k + 1) ++ (u16le alg ++ rest)))) =
      .err st2 ("[parse_event_log] No algorithm with such algo_id " ++ toString alg) := by
    unfold EventLogs.parse_event_log
    simp only [hsA, hvA, hnorm, hsB, hgrn, hsC, hvC, parseDigests, hsD, hvD, hfind]
  exact ⟨st2, _, hmain, hlogs, hcount⟩

/-- C5: a standard record whose digest list references an algorithm id
absent from the spec-ID header's declared table fails parsing with an
explicit error: the digest loop errs the moment it reads the undeclared
id (at any position), `parse_event_log` returns `Err` appending
nothing, and a whole-log `parse` over such a record aborts with `Err`
leaving the collection without any appended event. -/
theorem undeclared_algorithm_aborts_parse :
    (∀ (spec : TcgEfiSpecIdEvent) (data : List Nat) (index k : Nat)
       (acc : List TcgDigest) (b : List Nat),
      slice data index 2 = some b →
      (∀ a ∈ spec.digest_sizes, a.algo_id ≠ get_u16 b) →
      (parseDigests spec data index (k + 1) acc).isErr) ∧
    (∀ (st : EventLogs) (imr et dc alg : Nat) (rest : List Nat),
      st.wf → 1 ≤ imr → imr ≤ 24 → 1 ≤ dc → dc < u32Mod → alg < 2 ^ 16 →
      (∀ a ∈ st.spec_id_header_event.digest_sizes, a.algo_id ≠ alg) →
      (st.parse_event_log
        (u32le imr ++ (u32le et ++ (u32le dc ++ (u16le alg ++ rest))))).isErr) ∧
    (∀ (st : EventLogs) (imr et dc alg : Nat) (rest : List Nat),
      st.wf → 1 ≤ imr → imr ≤ 24 → et ≠ EV_NO_ACTION → et < u32Mod →
      1 ≤ dc → dc < u32Mod → alg < 2 ^ 16 →
      st.boot_time_data =
        u32le imr ++ (u32le et ++ (u32le dc ++ (u16le alg ++ rest))) →
      (∀ a ∈ st.spec_id_header_event.digest_sizes, a.algo_id ≠ alg) →
      ∃ st2 m, st.parse = .err st2 m ∧
        st2.event_logs = st.event_logs) := by
  refine ⟨?_, ?_, ?_⟩
  · intro spec data index k acc b hb htab
    have hfind : spec.digest_sizes.find?
        (fun a => a.algo_id == get_u16 b) = none := by
      rw [List.find?_eq_none]
      intro a ha
      simpa using htab a ha
    simp only [parseDigests, hb, hfind]
    trivial
  · intro st imr et dc alg rest hwf h1 h2 hdc hdc2 halg htab
    obtain ⟨st2, m, heq, _, _⟩ :=
      parse_event_log_undeclared_algo_err st imr et dc alg rest hwf h1 h2
        hdc hdc2 halg htab
    rw [heq]
    trivial
  · intro st imr et dc alg rest hwf h1 h2 het het2 hdc hdc2 halg hbd htab
    obtain ⟨st2, m, heq, hlogs, hcount⟩ :=
      parse_event_log_undeclared_algo_err st imr et dc alg rest hwf h1 h2
        hdc hdc2 halg htab
    have hne : (u32le imr ++ (u32le et ++ (u32le dc ++ (u16le alg ++ rest)))).isEmpty =
        false := by
      simp [u32le]
    have hlen : 0 <
        (u32le imr ++ (u32le et ++ (u32le dc ++ (u16le alg ++ rest)))).length := by
      simp [u32le]
    have hsA : slice (u32le imr ++ (u32le et ++ (u32le dc ++ (u16le alg ++ rest)))) 0 4 =
        some (u32le imr) := slice_front _ _
    have hsB : slice (u32le imr ++ (u32le et ++ (u32le dc ++ (u16le alg ++ rest)))) 4 4 =
        some (u32le et) :=
      (slice_shift (u32le imr) _ 0 4).trans (slice_front _ _)
    have hvA : get_u32 (u32le imr) = imr := by
      rw [get_u32_u32le]
      exact Nat.mod_eq_of_lt (by simp only [u32Mod]; omega)
    have hvB : get_u32 (u32le et) = et := by
      rw [get_u32_u32le]
      exact Nat.mod_eq_of_lt het2
    have hmain : st.parse =
        .err st2 ("[parse] error in parse_event_log function " ++ m) := by
      unfold EventLogs.parse
      rw [hbd, if_neg (by rw [hne]; exact Bool.false_ne_true)]
      simp only [EventLogs.parseBootLoop, if_pos hlen, hsA, hvA, hsB, hvB,
        if_neg (show ¬ imr = 4294967295 by omega),
        if_neg (show ¬ (et = EV_NO_ACTION ∧ st.count = 0) from fun hc => het hc.1),
        List.drop_zero, heq]
    exact ⟨st2, _, hmain, hlogs⟩

/-- C5 witness: the `parse_event_log` conjunct at a concrete undeclared
algorithm id (99) on a fresh collection whose declared table is empty. -/
theorem undeclared_algorithm_aborts_parse_witness :
    ((EventLogs.new [] [] 1).parse_event_log
      (u32le 1 ++ (u32le 1 ++ (u32le 1 ++ (u16le 99 ++ []))))).isErr :=
  undeclared_algorithm_aborts_parse.2.1 (EventLogs.new [] [] 1) 1 1 1 99 []
    rfl (by decide) (by decide) (by decide) (by decide) (by decide)
    (fun a ha => absurd ha (List.not_mem_nil a))

/-- C6 counterexample: a boot blob that is exactly the 4-byte
0xFFFFFFFF sentinel does not parse to zero records successfully — the
4-byte event-type field at offset 4 is read before the sentinel test,
so `parse` panics on the out-of-bounds read. -/
theorem sentinel_only_blob_panics :
    (EventLogs.new [255, 255, 255, 255] [] 1).parse = .panicked := rfl

/-- C6 amended: the 0xFFFFFFFF register-index sentinel stops the boot
walk immediately, keeping the state (and thus every accumulated record)
unchanged — at any record boundary that leaves at least 8 bytes in the
buffer, because the event-type field is read before the sentinel test;
in particular a blob of at least 8 bytes whose first 4 bytes are the
sentinel parses successfully to zero records. -/
theorem sentinel_stops_parsing_with_enough_bytes :
    (∀ (fuel : Nat) (st : EventLogs) (data : List Nat) (index : Nat),
      index < data.length →
      slice data index 4 = some [255, 255, 255, 255] →
      index + 8 ≤ data.length →
      EventLogs.parseBootLoop data (fuel + 1) st index = .ok st ()) ∧
    (∀ (rest : List Nat) (fmt : Nat), 4 ≤ rest.length →
      (EventLogs.new ([255, 255, 255, 255] ++ rest) [] fmt).parse =
        .ok (EventLogs.new ([255, 255, 255, 255] ++ rest) [] fmt) true) := by
  have hA : ∀ (fuel : Nat) (st : EventLogs) (data : List Nat) (index : Nat),
      index < data.length →
      slice data index 4 = some [255, 255, 255, 255] →
      index + 8 ≤ data.length →
      EventLogs.parseBootLoop data (fuel + 1) st index = .ok st () := by
    intro fuel st data index hidx hs h8
    have hs2 : slice data (index + 4) 4 = some ((data.drop (index + 4)).take 4) := by
      unfold slice
      rw [if_pos (by omega)]
    simp only [EventLogs.parseBootLoop, if_pos hidx, hs, hs2,
      if_pos (show get_u32 [255, 255, 255, 255] = 4294967295 from rfl)]
  refine ⟨hA, ?_⟩
  intro rest fmt h4
  unfold EventLogs.parse
  have hbd : (EventLogs.new ([255, 255, 255, 255] ++ rest) [] fmt).boot_time_data =
      [255, 255, 255, 255] ++ rest := rfl
  rw [hbd]
  have hemp : ([255, 255, 255, 255] ++ rest).isEmpty = false := rfl
  rw [hemp, if_neg Bool.false_ne_true]
  have hidx : 0 < ([255, 255, 255, 255] ++ rest).length := by simp
  have hs : slice ([255, 255, 255, 255] ++ rest) 0 4 =
      some [255, 255, 255, 255] := slice_front [255, 255, 255, 255] rest
  have h8 : 0 + 8 ≤ ([255, 255, 255, 255] ++ rest).length := by
    simp
    omega
  have hloop : EventLogs.parseBootLoop ([255, 255, 255, 255] ++ rest)
      (([255, 255, 255, 255] ++ rest).length + 1)
      (EventLogs.new ([255, 255, 255, 255] ++ rest) [] fmt) 0 =
      .ok (EventLogs.new ([255, 255, 255, 255] ++ rest) [] fmt) () :=
    hA ([255, 255, 255, 255] ++ rest).length
      (EventLogs.new ([255, 255, 255, 255] ++ rest) [] fmt)
      ([255, 255, 255, 255] ++ rest) 0 hidx hs h8
  rw [hloop]
  rfl

/-- C6 witness: the amended theorem's whole-parse conjunct on the
8-byte blob `FF FF FF FF 00 00 00 00`. -/
theorem sentinel_stops_parsing_with_enough_bytes_witness :
    (EventLogs.new ([255, 255, 255, 255] ++ [0, 0, 0, 0]) [] 1).parse =
      .ok (EventLogs.new ([255, 255, 255, 255] ++ [0, 0, 0, 0]) [] 1) true :=
  sentinel_stops_parsing_with_enough_bytes.2 [0, 0, 0, 0] 1 (by decide)

/-- Observation of one `select` call: the returned record list when the
call succeeds. -/
def selectObserved (st : EventLogs) (start count : Option Nat) :
    Option (List EventLogEntry) :=
  match st.select start count with
  | .ok _ l => some l
  | _ => none

/-- C7 counterexample: on a one-record collection, `select(Some 1,
Some 0)` — start equal to the total, count zero — returns `Ok` with the
empty list, because the start-equals-total early return precedes the
count-is-zero check; this refutes the claim that `select(_, Some(0))`
returns an error. -/
theorem select_zero_count_at_total_not_error :
    selectObserved (EventLogs.new c4Blob [] 1) (some 1) (some 0) = some [] := rfl

/-- C7 amended: after a successful parse yielding `st1` with
`N = st1.count` records, `select(None, None)` returns the full parsed
sequence; `select(Some N, c)` returns an empty sequence successfully for
EVERY count argument `c` — including `Some 0`, because the
start-equals-total early return precedes the count check;
`select(Some n, c)` with `n > N` errors; `select(s, Some 0)` errors when
the start is `None` or strictly below `N`; and `select(Some s, Some c)`
with `s < N`, `c > 0`, `s + c > N` and `s + c < 2 ^ 32` is not an error
but returns the records from `s` to the end (the count is silently
clamped; a u32-overflowing `s + c` instead wraps and can panic). -/
theorem select_range_semantics (st st1 : EventLogs) (b : Bool)
    (hp : st.parse = .ok st1 b)
    (hcnt : st1.count = st1.event_logs.length) :
    (st.select none none = .ok st1 st1.event_logs) ∧
    (∀ c, st.select (some st1.count) c = .ok st1 []) ∧
    (∀ n c, st1.count < n → (st.select (some n) c).isErr) ∧
    ((st.select none (some 0)).isErr) ∧
    (∀ s2, s2 < st1.count → (st.select (some s2) (some 0)).isErr) ∧
    (∀ s2 c, s2 < st1.count → 0 < c → st1.count < s2 + c →
      s2 + c < u32Mod →
      st.select (some s2) (some c) = .ok st1 (st1.event_logs.drop s2)) := by
  have hsrFull : sliceRange st1.event_logs 0 st1.event_logs.length =
      some st1.event_logs := by
    unfold sliceRange
    rw [if_pos ⟨Nat.zero_le _, Nat.le_refl _⟩]
    simp
  refine ⟨?_, ?_, ?_, ?_, ?_, ?_⟩
  · simp only [EventLogs.select, hp, EventLogs.selectEnd, hsrFull]
  · intro c
    simp only [EventLogs.select, hp]
    rw [if_neg (by omega)]
    simp
  · intro n c hn
    simp only [EventLogs.select, hp]
    rw [if_pos (by omega)]
    trivial
  · simp only [EventLogs.select, hp, EventLogs.selectEnd]
    simp only [if_true]
    trivial
  · intro s2 hs2
    simp only [EventLogs.select, hp]
    rw [if_neg (by omega), if_neg (by omega)]
    simp only [EventLogs.selectEnd, if_true]
    trivial
  · intro s2 c hs2 hc hgt hlt
    simp only [EventLogs.select, hp]
    rw [if_neg (by omega), if_neg (by omega)]
    simp only [EventLogs.selectEnd]
    rw [if_neg (by omega)]
    have hmod : (c + s2) % u32Mod = c + s2 :=
      Nat.mod_eq_of_lt (by omega)
    rw [hmod, if_pos (by omega)]
    have hsr : sliceRange st1.event_logs s2 st1.event_logs.length =
        some (st1.event_logs.drop s2) := by
      unfold sliceRange
      rw [if_pos ⟨by omega, Nat.le_refl _⟩]
      rw [← List.length_drop, List.take_length]
    rw [hsr]

/-- The state produced by parsing the one-record blob `c4Blob` on a
fresh collection. -/
def c4St1 : EventLogs :=
  { spec_id_header_event := TcgEfiSpecIdEvent.new,
    boot_time_data := c4Blob, run_time_data := [],
    event_logs := [.tcgImrEvent
      { imr_index := 0, event_type := 1, digests := [],
        event_size := 0, event := [] }],
    count := 1, parse_format := 1,
    event_logs_record_number_list :=
      [1, 0, 0, 0, 0, 0, 0, 0, 0, 0, 0, 0, 0, 0, 0, 0, 0, 0, 0, 0, 0, 0, 0, 0] }

/-- C7 witness: the full-sequence conjunct on the parsed one-record
collection. -/
theorem select_range_semantics_witness :
    (EventLogs.new c4Blob [] 1).select none none = .ok c4St1 c4St1.event_logs :=
  (select_range_semantics (EventLogs.new c4Blob [] 1) c4St1 true rfl rfl).1

end EvidenceApi
